import Mathlib

/-!
Verification development for the `twitch-archive` stream archiver.

Each Rust function relevant to the checked claims is shallowly embedded as a
Lean definition operating on explicit state; machine integers are modelled as
`Nat` with reductions mod `2 ^ w` where overflow matters.  External library
behaviour (JSON parsing via serde, the async channel, the HTTP client) is
modelled by explicit oracles or state fields, while all decision logic of the
repository itself is translated directly from the source.
-/

namespace TwitchArchive

/-- Rust `&str` values are modelled as explicit character lists. -/
abbrev Str := List Char

/-- Byte slices (`&[u8]`, `Vec<u8>`) are modelled as lists of naturals `< 256`. -/
abbrev Bytes := List Nat

/-- `str::as_bytes` for the ASCII strings used by the callback handlers. -/
def strBytes (s : Str) : Bytes := s.map Char.toNat

/-! ## Hex encoding and decoding

`eventsub/mod.rs` decodes the `Twitch-Eventsub-Message-Signature` header with
`u8::from_str_radix(&sig[i..i+2], 16)` over consecutive character pairs; the
platform side encodes the HMAC digest in lowercase hex. -/

/-- Lowercase hex digit for a value `< 16`: `0-9` then `a-f`. -/
def hexChar (d : Nat) : Char :=
  if d < 10 then Char.ofNat (48 + d) else Char.ofNat (87 + d)

/-- Lowercase hex rendering of a byte string. -/
def hexEncode (b : Bytes) : Str :=
  b.flatMap (fun x => [hexChar (x / 16), hexChar (x % 16)])

/-- `u8::from_str_radix(_, 16)` on a single digit character. -/
def hexDigitVal (c : Char) : Option Nat :=
  if 48 ≤ c.toNat ∧ c.toNat ≤ 57 then some (c.toNat - 48)
  else if 97 ≤ c.toNat ∧ c.toNat ≤ 102 then some (c.toNat - 87)
  else if 65 ≤ c.toNat ∧ c.toNat ≤ 70 then some (c.toNat - 55)
  else none

/-- The `(0..sig.len()).step_by(2)` pair decoder from `verify_msg`, collected
into an `Option` exactly as the Rust `collect::<Result<Vec<u8>, _>>()`. -/
def hexDecode : Str → Option Bytes
  | [] => some []
  | c1 :: c2 :: rest => do
    let d1 ← hexDigitVal c1
    let d2 ← hexDigitVal c2
    let r ← hexDecode rest
    pure ((16 * d1 + d2) :: r)
  | [_] => none

theorem hexDigitVal_hexChar : ∀ d < 16, hexDigitVal (hexChar d) = some d := by
  decide

theorem hexEncode_length (b : Bytes) : (hexEncode b).length = 2 * b.length := by
  induction b with
  | nil => rfl
  | cons x xs ih =>
    simp [hexEncode, List.flatMap_cons] at ih ⊢
    omega

theorem hexDecode_hexEncode (b : Bytes) (hb : ∀ x ∈ b, x < 256) :
    hexDecode (hexEncode b) = some b := by
  induction b with
  | nil => rfl
  | cons x xs ih =>
    have hx : x < 256 := hb x (List.mem_cons_self x xs)
    have hxs : ∀ y ∈ xs, y < 256 := fun y hy => hb y (List.mem_cons_of_mem x hy)
    have h1 : x / 16 < 16 := by omega
    have h2 : x % 16 < 16 := Nat.mod_lt _ (by omega)
    show hexDecode (hexChar (x / 16) :: hexChar (x % 16) :: hexEncode xs) = _
    simp [hexDecode, hexDigitVal_hexChar _ h1, hexDigitVal_hexChar _ h2, ih hxs,
      Nat.div_add_mod]

/-! ## HMAC-SHA256

`verify_msg` in `eventsub/mod.rs` keys an `Hmac<Sha256>` with the stored
subscription secret, feeds it `Message-Id`, `Message-Timestamp` and the raw
body, and compares with the decoded signature.  SHA-256 is implemented here
over `Nat` words reduced mod `2 ^ 32`. -/

/-- Reduce to a 32-bit word. -/
def w32 (n : Nat) : Nat := n % 4294967296

/-- Right rotation of a 32-bit word by `n` places. -/
def rotr32 (n x : Nat) : Nat := x / 2 ^ n + x % 2 ^ n * 2 ^ (32 - n)

/-- Bitwise complement within 32 bits. -/
def not32 (x : Nat) : Nat := 4294967295 - x % 4294967296

def shaCh (x y z : Nat) : Nat := Nat.xor (Nat.land x y) (Nat.land (not32 x) z)

def shaMaj (x y z : Nat) : Nat :=
  Nat.xor (Nat.xor (Nat.land x y) (Nat.land x z)) (Nat.land y z)

def shaS0 (x : Nat) : Nat := Nat.xor (Nat.xor (rotr32 2 x) (rotr32 13 x)) (rotr32 22 x)
def shaS1 (x : Nat) : Nat := Nat.xor (Nat.xor (rotr32 6 x) (rotr32 11 x)) (rotr32 25 x)
def shas0 (x : Nat) : Nat := Nat.xor (Nat.xor (rotr32 7 x) (rotr32 18 x)) (x / 2 ^ 3)
def shas1 (x : Nat) : Nat := Nat.xor (Nat.xor (rotr32 17 x) (rotr32 19 x)) (x / 2 ^ 10)

/-- The SHA-256 round constants (decimal). -/
def shaK : List Nat :=
  [1116352408, 1899447441, 3049323471, 3921009573, 961987163,
   1508970993, 2453635748, 2870763221, 3624381080, 310598401,
   607225278, 1426881987, 1925078388, 2162078206, 2614888103,
   3248222580, 3835390401, 4022224774, 264347078, 604807628,
   770255983, 1249150122, 1555081692, 1996064986, 2554220882,
   2821834349, 2952996808, 3210313671, 3336571891, 3584528711,
   113926993, 338241895, 666307205, 773529912, 1294757372,
   1396182291, 1695183700, 1986661051, 2177026350, 2456956037,
   2730485921, 2820302411, 3259730800, 3345764771, 3516065817,
   3600352804, 4094571909, 275423344, 430227734, 506948616,
   659060556, 883997877, 958139571, 1322822218, 1537002063,
   1747873779, 1955562222, 2024104815, 2227730452, 2361852424,
   2428436474, 2756734187, 3204031479, 3329325298]

/-- The SHA-256 initial hash state (decimal). -/
def shaH0 : List Nat :=
  [1779033703, 3144134277, 1013904242,
   2773480762, 1359893119, 2600822924,
   528734635, 1541459225]

/-- Big-endian 8-byte rendering of the message bit length. -/
def be64 (n : Nat) : Bytes :=
  [n / 2 ^ 56 % 256, n / 2 ^ 48 % 256, n / 2 ^ 40 % 256, n / 2 ^ 32 % 256,
   n / 2 ^ 24 % 256, n / 2 ^ 16 % 256, n / 2 ^ 8 % 256, n % 256]

/-- Big-endian bytes of a 32-bit word. -/
def wordBytes (w : Nat) : Bytes :=
  [w / 2 ^ 24 % 256, w / 2 ^ 16 % 256, w / 2 ^ 8 % 256, w % 256]

/-- SHA-256 message padding: `0x80`, zeros to 56 mod 64, 64-bit bit length. -/
def shaPad (m : Bytes) : Bytes :=
  m ++ 128 :: List.replicate ((119 - m.length % 64) % 64) 0 ++ be64 (8 * m.length)

/-- Split a byte string into 64-byte blocks (fuelled to stay structural). -/
def chunks64Aux : Nat → Bytes → List Bytes
  | 0, _ => []
  | _ + 1, [] => []
  | fuel + 1, l => l.take 64 :: chunks64Aux fuel (l.drop 64)

def chunks64 (l : Bytes) : List Bytes := chunks64Aux l.length l

/-- Big-endian 32-bit word at word index `i` of a block. -/
def blockWord (block : Bytes) (i : Nat) : Nat :=
  block.getD (4 * i) 0 * 2 ^ 24 + block.getD (4 * i + 1) 0 * 2 ^ 16 +
    block.getD (4 * i + 2) 0 * 2 ^ 8 + block.getD (4 * i + 3) 0

/-- Extend the 16 block words to the 64-entry message schedule. -/
def schedExtend (ws : List Nat) : Nat → List Nat
  | 0 => ws
  | k + 1 =>
    let n := ws.length
    schedExtend
      (ws ++ [w32 (shas1 (ws.getD (n - 2) 0) + ws.getD (n - 7) 0 +
        shas0 (ws.getD (n - 15) 0) + ws.getD (n - 16) 0)]) k

def schedule (block : Bytes) : List Nat :=
  schedExtend ((List.range 16).map (blockWord block)) 48

/-- One round of the SHA-256 compression on the 8-word working state. -/
def shaRound (st : List Nat) (wk : Nat × Nat) : List Nat :=
  let a := st.getD 0 0; let b := st.getD 1 0; let c := st.getD 2 0
  let d := st.getD 3 0; let e := st.getD 4 0; let f := st.getD 5 0
  let g := st.getD 6 0; let h := st.getD 7 0
  let t1 := w32 (h + shaS1 e + shaCh e f g + wk.2 + wk.1)
  let t2 := w32 (shaS0 a + shaMaj a b c)
  [w32 (t1 + t2), a, b, c, w32 (d + t1), e, f, g]

/-- Compress one 64-byte block into the running hash state. -/
def shaCompress (h : List Nat) (block : Bytes) : List Nat :=
  let fin := ((schedule block).zip shaK).foldl shaRound h
  (h.zip fin).map (fun p => w32 (p.1 + p.2))

/-- SHA-256 of a byte string. -/
def sha256 (m : Bytes) : Bytes :=
  ((chunks64 (shaPad m)).foldl shaCompress shaH0).flatMap wordBytes

/-- HMAC-SHA256 with an arbitrary-length key, as computed by `Hmac<Sha256>`. -/
def hmacSha256 (key msg : Bytes) : Bytes :=
  let k0 := if 64 < key.length then sha256 key else key
  let kp := k0 ++ List.replicate (64 - k0.length) 0
  sha256 (kp.map (fun b => Nat.xor b 92) ++
    sha256 (kp.map (fun b => Nat.xor b 54) ++ msg))

theorem sha256_lt (m : Bytes) : ∀ b ∈ sha256 m, b < 256 := by
  intro b hb
  simp only [sha256, List.mem_flatMap] at hb
  obtain ⟨w, -, hbw⟩ := hb
  simp only [wordBytes, List.mem_cons, List.not_mem_nil, or_false] at hbw
  rcases hbw with h | h | h | h <;> subst h <;> exact Nat.mod_lt _ (by omega)

theorem hmacSha256_lt (key msg : Bytes) : ∀ b ∈ hmacSha256 key msg, b < 256 := by
  intro b hb
  exact sha256_lt _ b hb

/-! ## Subscription state (`eventsub/subscription.rs`) -/

/-- `SubStatus` from `eventsub/subscription.rs`. -/
inductive SubStatus where
  | Enabled
  | VerificationPending
  | VerificationFailed
  | NotificationFailuresExceeded
  | AuthorizationRevoked
  | ModeratorRemoved
  | UserRemoved
  | VersionRemoved
deriving DecidableEq, Repr

/-- `SubStatus::is_ok`. -/
def SubStatus.isOkStatus (s : SubStatus) : Bool :=
  s = SubStatus.Enabled ∨ s = SubStatus.VerificationPending

/-! ## Callback server state (`eventsub/mod.rs`)

The `DashMap<SubUnique, (Arc<Atomic<SubStatus>>, Secret, Sender<_>)>` is
modelled as an association list keyed by the subscription id.  The unbounded
`async_std` channel held in each entry is modelled by the list of queued
events plus a flag recording whether the receiving half is still alive
(`Sender::send` fails exactly when the receiver was dropped). -/

structure Entry where
  status : SubStatus
  secret : Str
  consumerAlive : Bool
  queue : List Bytes
deriving DecidableEq, Repr

abbrev SubState := List (Str × Entry)

/-- `DashMap::get` keyed by subscription id. -/
def stateGet (st : SubState) (k : Str) : Option Entry :=
  (st.find? (fun p => p.1 = k)).map (·.2)

/-- In-place update of the entry at key `k` (status CAS / queue push act on
the entry held in the map). -/
def stateSet (st : SubState) (k : Str) (e : Entry) : SubState :=
  st.map (fun p => if p.1 = k then (k, e) else p)

/-- `DashMap::remove` keyed by subscription id. -/
def stateRemove (st : SubState) (k : Str) : SubState :=
  st.filter (fun p => !(p.1 = k : Bool))

/-- The parts of the `/callback` POST the handler reads: the four
`Twitch-Eventsub-Message-*` headers and the raw body bytes. -/
structure Req where
  msgId : Option Str
  msgTime : Option Str
  msgSig : Option Str
  msgType : Option Str
  body : Bytes

/-- `verify_msg` from `eventsub/mod.rs`: require the three headers, mac the
id, timestamp and body with the stored secret, strip the 7-char `sha256=`
prefix, decode the hex pairs and compare against the digest. -/
def verify_msg (secret : Str) (req : Req) (body : Bytes) : Bool :=
  match req.msgId, req.msgTime, req.msgSig with
  | some v1, some v2, some sig =>
    let mac := hmacSha256 (strBytes secret) (strBytes v1 ++ strBytes v2 ++ body)
    if sig.length < 7 then false
    else
      let s := sig.drop 7
      if s.length % 2 ≠ 0 then false
      else
        match hexDecode s with
        | none => false
        | some sigBytes => decide (sigBytes = mac)
  | _, _, _ => false

/-- Parsed body of a `notification` message (`RawEvent`). -/
structure NotifMsg where
  subId : Str
  event : Bytes

/-- Parsed body of a `webhook_callback_verification` message (`ChallengeReq`). -/
structure VerifMsg where
  subId : Str
  challenge : Str

/-- Parsed body of a `revocation` message (`RevokeReq`). -/
structure RevokeMsg where
  subId : Str
  status : SubStatus

/-- The three `serde_json::from_slice` deserializers used by the handler,
supplied as oracles (serde is an external collaborator). -/
structure Parsers where
  notif : Bytes → Option NotifMsg
  verif : Bytes → Option VerifMsg
  revoke : Bytes → Option RevokeMsg

/-- An HTTP response as the handler builds it; the JSON body attached to 409
replies is not modelled (no claim refers to it). -/
structure Response where
  status : Nat
  body : Str
deriving DecidableEq, Repr

/-- Revocation also writes the delivered status into the removed entry's
shared `Arc<Atomic<SubStatus>>` cell; the handler result reports that write
so the subscription handle's view can be derived. -/
structure CallbackOut where
  state : SubState
  response : Response
  swappedTo : Option SubStatus
deriving DecidableEq, Repr

/-- The `/callback` POST handler from `eventsub/mod.rs` (`async fn callback`).
A `serde` failure propagates out of the handler through `?`, modelled as
`Except.error`. -/
def callback (P : Parsers) (st : SubState) (req : Req) : Except Unit CallbackOut :=
  match req.msgType with
  | none => .ok ⟨st, ⟨400, []⟩, none⟩
  | some t =>
    if t = "notification".toList then
      match P.notif req.body with
      | none => .error ()
      | some msg =>
        match stateGet st msg.subId with
        | none => .ok ⟨st, ⟨404, []⟩, none⟩
        | some e =>
          if !verify_msg e.secret req req.body then .ok ⟨st, ⟨401, []⟩, none⟩
          else if e.status ≠ SubStatus.Enabled then .ok ⟨st, ⟨409, []⟩, none⟩
          else if e.consumerAlive then
            .ok ⟨stateSet st msg.subId { e with queue := e.queue ++ [msg.event] },
              ⟨200, []⟩, none⟩
          else
            .ok ⟨stateRemove st msg.subId, ⟨410, []⟩, none⟩
    else if t = "webhook_callback_verification".toList then
      match P.verif req.body with
      | none => .error ()
      | some msg =>
        match stateGet st msg.subId with
        | none => .ok ⟨st, ⟨404, []⟩, none⟩
        | some e =>
          if !verify_msg e.secret req req.body then .ok ⟨st, ⟨401, []⟩, none⟩
          else if e.status = SubStatus.VerificationPending then
            .ok ⟨stateSet st msg.subId { e with status := SubStatus.Enabled },
              ⟨200, msg.challenge⟩, none⟩
          else .ok ⟨st, ⟨409, []⟩, none⟩
    else if t = "revocation".toList then
      match P.revoke req.body with
      | none => .error ()
      | some msg =>
        match stateGet st msg.subId with
        | none => .ok ⟨st, ⟨404, []⟩, none⟩
        | some e =>
          if !verify_msg e.secret req req.body then
            .ok ⟨stateRemove st msg.subId, ⟨401, []⟩, none⟩
          else
            .ok ⟨stateRemove st msg.subId, ⟨200, []⟩, some msg.status⟩
    else .ok ⟨st, ⟨400, []⟩, none⟩

/-! ## Subscription handle (`eventsub/subscription.rs`)

`Subscription<T>` observes the shared `Arc<Atomic<SubStatus>>` cell and the
receiving half of the event channel.  `HandleState` is that observable state:
the cell value, the queued events, and whether the sending half still lives
(removal of the index entry drops the `Sender`). -/

structure HandleState where
  status : SubStatus
  pending : List Bytes
  senderAlive : Bool
deriving DecidableEq, Repr

/-- Outcomes of `Subscription::recv`: `Ok(Some _)`, `Ok(None)`,
`Err(RecvError::ChannelClosed _)`, `Err(RecvError::ParseError _)`, or still
awaiting the channel. -/
inductive RecvOut where
  | okSome (ev : Bytes)
  | okNone
  | channelClosed
  | parseFailed
  | awaiting
deriving DecidableEq, Repr

/-- `Subscription::recv` from `eventsub/subscription.rs`: return `Ok(None)`
when the shared status is not `is_ok`, otherwise await `rx.recv()`, mapping a
closed-channel error to `RecvError::ChannelClosed`.  The typed `serde` decode
of a received payload is kept abstract via the `parse` oracle. -/
def Subscription.recv (parse : Bytes → Bool) (h : HandleState) : RecvOut :=
  if !h.status.isOkStatus then RecvOut.okNone
  else
    match h.pending with
    | e :: _ => if parse e then RecvOut.okSome e else RecvOut.parseFailed
    | [] => if h.senderAlive then RecvOut.awaiting else RecvOut.channelClosed

/-- Resumption of a `recv` already blocked inside `rx.recv().await`: the
status check at the top of `recv` has already happened, so only the channel
outcome decides the result (`.map_err(RecvError::ChannelClosed)`). -/
def Subscription.recvResume (parse : Bytes → Bool) (h : HandleState) : RecvOut :=
  match h.pending with
  | e :: _ => if parse e then RecvOut.okSome e else RecvOut.parseFailed
  | [] => if h.senderAlive then RecvOut.awaiting else RecvOut.channelClosed

/-- Effect of the `/callback` revocation branch on the handle's observable
state: the index entry is removed (dropping the `Sender`) and the delivered
status is `swap`ped into the shared cell. -/
def afterRevocation (h : HandleState) (revStatus : SubStatus) : HandleState :=
  { status := revStatus, pending := h.pending, senderAlive := false }

/-! ## Credential broker (`helix/auth.rs`)

`HelixAuth::send_req` sends the request once; on a 401 it refreshes the token
under the mutex and resends once, returning whatever the second attempt
yields.  The HTTP exchange is modelled by the statuses the server would
return for the first and second attempt and by the token endpoint's answer. -/

/-- `surf::StatusCode::is_success` (the 2xx range). -/
def isSuccess (s : Nat) : Bool := 200 ≤ s ∧ s < 300

inductive SendOutcome where
  /-- `Ok(response)` carrying the response's status. -/
  | okResponse (status : Nat)
  /-- `Err(anyhow!("request returned status {}", x))`. -/
  | errStatus (status : Nat)
  /-- a failure propagated from the token endpoint refresh. -/
  | errRefresh
deriving DecidableEq, Repr

/-- Observable trace of one `send_req` call. -/
structure SendTrace where
  outcome : SendOutcome
  /-- times the original request was sent. -/
  apiCalls : Nat
  /-- `POST /oauth2/token` requests issued. -/
  tokenCalls : Nat
  /-- bearer token after the call. -/
  auth : Str
deriving DecidableEq, Repr

/-- `HelixAuth::send_req`: `first`/`second` are the statuses the server
answers the two possible attempts with; `refresh` is the token endpoint's
result (`none` = failure propagates, `some tok` = new bearer). -/
def send_req (first second : Nat) (refresh : Option Str) (auth0 : Str) : SendTrace :=
  if first = 401 then
    match refresh with
    | none => ⟨SendOutcome.errRefresh, 1, 1, auth0⟩
    | some tok => ⟨SendOutcome.okResponse second, 2, 1, tok⟩
  else if isSuccess first then ⟨SendOutcome.okResponse first, 1, 0, auth0⟩
  else ⟨SendOutcome.errStatus first, 1, 0, auth0⟩

/-- A sequence of `send_req` calls; each list element gives one call's
first-response status, second-response status and token-endpoint result.
Returns total token-endpoint requests and the final bearer. -/
def sendSeq (auth0 : Str) : List (Nat × Nat × Option Str) → Nat × Str
  | [] => (0, auth0)
  | c :: rest =>
    let t := send_req c.1 c.2.1 c.2.2 auth0
    let r := sendSeq t.auth rest
    (t.tokenCalls + r.1, r.2)

/-! ## HLS segment rewrite (`hls.rs`)

`download_media` consumes the segment stream with
`rx.skip_while(|s| s.title starts_with "Amazon").enumerate()` and renames each
surviving segment's URI to `"{stream_name}/{i:05}.ts"`.  The download, file
creation and playlist append keep the segment order, so the rewritten
playlist is exactly the renamed list. -/

structure MediaSegment where
  uri : Str
  title : Option Str
deriving DecidableEq, Repr

/-- The `skip_while` predicate of `download_media`:
`if let Some(x) = &s.title { x.starts_with("Amazon") } else { false }`. -/
def isAdSegment (s : MediaSegment) : Bool :=
  match s.title with
  | some x => "Amazon".toList.isPrefixOf x
  | none => false

/-- `format!("{i:05}")`: decimal digits left-padded with zeros to width 5. -/
def pad5 (i : Nat) : Str :=
  let d := (Nat.toDigits 10 i)
  List.replicate (5 - d.length) '0' ++ d

/-- Rewritten URI `format!("{stream_name}/{i:05}.ts")`. -/
def segName (streamName : Str) (i : Nat) : Str :=
  streamName ++ '/' :: pad5 i ++ ".ts".toList

/-- The pure content of `download_media`'s segment pipeline: drop the leading
ad segments, then index from zero and rewrite each URI. -/
def download_media_rewrite (streamName : Str) (segs : List MediaSegment) :
    List MediaSegment :=
  ((segs.dropWhile isAdSegment).enum).map
    (fun p => { p.2 with uri := segName streamName p.1 })

/-- Alternative-media entries of the master playlist (`m3u8_rs`). -/
structure AltMedia where
  name : Str
deriving DecidableEq, Repr

/-- Format selection from `hls::download`: the first format in the priority
list matching an alternative; `"best"` takes the first alternative, anything
else the first alternative whose name starts with the format. -/
def selectAlt (formats : List Str) (alts : List AltMedia) : Option (Str × AltMedia) :=
  formats.findSome? (fun f =>
    (if f = "best".toList then alts.head?
     else alts.find? (fun x => f.isPrefixOf x.name)).map (fun x => (f, x)))

/-! ## IRC reconnect loop (`irc.rs`)

The spawned task loops `while try_count <= 10`; a successful connect resets
`try_count` to 0; every connection-phase or handle-phase error falls through
to `sleep(Duration::from_secs(60)); try_count += 1`.  When the guard fails
the async task simply returns — there is no process abort in the source. -/

inductive IrcStep where
  /-- `_connect()` returned `Err`. -/
  | connFail
  /-- connect succeeded, `_handle` returned `Err`. -/
  | handleErr
  /-- connect succeeded, `_handle` returned `Ok` (Quit / EOF). -/
  | handleDone
deriving DecidableEq, Repr

inductive IrcEnd where
  /-- `_handle` finished cleanly and the task returned. -/
  | handlerDone
  /-- the `while try_count <= 10` guard failed; the task returns. -/
  | gaveUp
  /-- the supplied outcome trace ran out while the loop wanted to continue. -/
  | needMoreTrace
deriving DecidableEq, Repr

structure IrcRun where
  /-- sleep durations performed, in seconds. -/
  sleeps : List Nat
  /-- connection attempts made. -/
  attempts : Nat
  ended : IrcEnd
deriving DecidableEq, Repr

/-- The reconnect loop of `IrcClientBuilder::build`, driven by a trace of
per-iteration outcomes. -/
def ircLoop (tryCount : Nat) : List IrcStep → IrcRun
  | [] => if tryCount ≤ 10 then ⟨[], 0, IrcEnd.needMoreTrace⟩ else ⟨[], 0, IrcEnd.gaveUp⟩
  | step :: rest =>
    if tryCount ≤ 10 then
      match step with
      | IrcStep.connFail =>
        let r := ircLoop (tryCount + 1) rest
        ⟨60 :: r.sleeps, r.attempts + 1, r.ended⟩
      | IrcStep.handleErr =>
        let r := ircLoop 1 rest
        ⟨60 :: r.sleeps, r.attempts + 1, r.ended⟩
      | IrcStep.handleDone => ⟨[], 1, IrcEnd.handlerDone⟩
    else ⟨[], 0, IrcEnd.gaveUp⟩

/-! ## Filename dedup (`fs_utils.rs`)

The filesystem is modelled as the list of existing path strings.  Directory
paths are a parent plus a final component, file paths a parent, stem and
extension — mirroring the `file_name` / `file_stem` / `set_extension`
manipulations the dedup loops perform. -/

def MAX_FILENAME_DUP : Nat := 65536

structure DirPath where
  parent : Str
  name : Str
deriving DecidableEq, Repr

def DirPath.render (p : DirPath) : Str := p.parent ++ '/' :: p.name

structure FilePath where
  parent : Str
  stem : Str
  ext : Str
deriving DecidableEq, Repr

def FilePath.render (p : FilePath) : Str :=
  p.parent ++ '/' :: p.stem ++ '.' :: p.ext

abbrev Fs := List Str

/-- `create_new_dir`: if the parent is not a directory, `create_dir_all` the
whole path (reporting success); otherwise `create_dir`, mapping the
`AlreadyExists` error to `false`. -/
def create_new_dir (fs : Fs) (p : DirPath) : Fs × Bool :=
  if !fs.contains p.parent then (p.parent :: p.render :: fs, true)
  else if fs.contains p.render then (fs, false)
  else (p.render :: fs, true)

/-- `create_new_file`: open with `create_new(true)`, mapping `AlreadyExists`
to `None`. -/
def create_new_file (fs : Fs) (p : FilePath) : Fs × Bool :=
  if fs.contains p.render then (fs, false) else (p.render :: fs, true)

/-- `format!("-{}", i)` appended to a name. -/
def dashNum (i : Nat) : Str := '-' :: Nat.toDigits 10 i

/-- The `for i in 1..MAX_FILENAME_DUP` loop of `create_dedup_dir`. -/
def create_dedup_dir_loop (p : DirPath) : Fs → List Nat → Option (Fs × DirPath)
  | _, [] => none
  | fs, i :: rest =>
    let q : DirPath := { p with name := p.name ++ dashNum i }
    match create_new_dir fs q with
    | (fs', true) => some (fs', q)
    | (fs', false) => create_dedup_dir_loop p fs' rest

/-- `create_dedup_dir` from `fs_utils.rs`; `none` models the final
`AlreadyExists` error after exhausting every suffix. -/
def create_dedup_dir (fs : Fs) (p : DirPath) : Option (Fs × DirPath) :=
  match create_new_dir fs p with
  | (fs', true) => some (fs', p)
  | (fs', false) => create_dedup_dir_loop p fs' ((List.range MAX_FILENAME_DUP).drop 1)

/-- The `for i in 1..MAX_FILENAME_DUP` loop of `create_dedup_file`; the
suffix goes on the stem and the extension is re-applied. -/
def create_dedup_file_loop (p : FilePath) : Fs → List Nat → Option (Fs × FilePath)
  | _, [] => none
  | fs, i :: rest =>
    let q : FilePath := { p with stem := p.stem ++ dashNum i }
    match create_new_file fs q with
    | (fs', true) => some (fs', q)
    | (fs', false) => create_dedup_file_loop p fs' rest

/-- `create_dedup_file` from `fs_utils.rs` (the initial `create_dir_all` on
the parent is modelled by inserting the parent path). -/
def create_dedup_file (fs : Fs) (p : FilePath) : Option (Fs × FilePath) :=
  let fs0 := if fs.contains p.parent then fs else p.parent :: fs
  match create_new_file fs0 p with
  | (fs', true) => some (fs', p)
  | (fs', false) => create_dedup_file_loop p fs' ((List.range MAX_FILENAME_DUP).drop 1)

/-! ## Retry helper (`retry.rs`)

`retry` asserts `count > 0`, runs `count - 1` fallible attempts with a sleep
after each failure, then a final attempt whose result is returned.  The
wrapped closure is modelled by the oracle `res` giving each attempt's
result; the panic of the failed assertion is modelled as `none`. -/

/-- The loop body: `i` is the index of the next attempt, the `Nat` argument
the number of non-final attempts remaining. -/
def retryAux (res : Nat → Except Str Nat) (i : Nat) : Nat → Except Str Nat × Nat
  | 0 => (res i, i + 1)
  | k + 1 =>
    match res i with
    | .ok x => (.ok x, i + 1)
    | .error _ => retryAux res (i + 1) k

/-- `retry` from `retry.rs`: result plus the number of attempts performed,
or `none` for the `assert!(count > 0)` panic. -/
def retry (res : Nat → Except Str Nat) (count : Nat) :
    Option (Except Str Nat × Nat) :=
  if count = 0 then none else some (retryAux res 0 (count - 1))

/-! ## Helper lemmas -/

theorem verify_msg_of_correct_sig (secret : Str) (req : Req) (v1 v2 : Str)
    (hid : req.msgId = some v1) (htime : req.msgTime = some v2)
    (hsig : req.msgSig = some ("sha256=".toList ++
      hexEncode (hmacSha256 (strBytes secret) (strBytes v1 ++ strBytes v2 ++ req.body)))) :
    verify_msg secret req req.body = true := by
  have h7 : ("sha256=".toList : Str).length = 7 := by decide
  unfold verify_msg
  rw [hid, htime, hsig]
  simp only
  have hmac := hmacSha256_lt (strBytes secret) (strBytes v1 ++ strBytes v2 ++ req.body)
  set m := hmacSha256 (strBytes secret) (strBytes v1 ++ strBytes v2 ++ req.body) with hm
  have hlen : ("sha256=".toList ++ hexEncode m).length = 7 + 2 * m.length := by
    rw [List.length_append, h7, hexEncode_length]
  rw [if_neg (by omega)]
  have hdrop : ("sha256=".toList ++ hexEncode m).drop 7 = hexEncode m := by
    rw [← h7, List.drop_left]
  rw [hdrop]
  rw [if_neg (by rw [hexEncode_length]; omega)]
  rw [hexDecode_hexEncode m hmac]
  simp

theorem stateGet_stateRemove_self (st : SubState) (k : Str) :
    stateGet (stateRemove st k) k = none := by
  induction st with
  | nil => rfl
  | cons p rest ih =>
    by_cases h : p.1 = k
    · rw [show stateRemove (p :: rest) k = stateRemove rest k by
        simp [stateRemove, h]]
      exact ih
    · rw [show stateRemove (p :: rest) k = p :: stateRemove rest k by
        simp [stateRemove, h]]
      simp only [stateGet, List.find?]
      rw [show (decide (p.1 = k)) = false by simp [h]]
      exact ih

/-! ## C1 -/

/-- C1: a POST to `/callback` with message type `webhook_callback_verification`,
a correct HMAC-SHA256 signature over `Message-Id`, `Message-Timestamp` and the
raw body under the stored secret, and an indexed subscription in state
`VerificationPending`, is answered 200 with the challenge as body, and the
entry's status is compare-exchanged from `VerificationPending` to `Enabled`. -/
theorem c1_verification_happy_path (P : Parsers) (st : SubState) (req : Req)
    (idStr ch v1 v2 : Str) (e : Entry)
    (htype : req.msgType = some "webhook_callback_verification".toList)
    (hparse : P.verif req.body = some ⟨idStr, ch⟩)
    (hget : stateGet st idStr = some e)
    (hstatus : e.status = SubStatus.VerificationPending)
    (hid : req.msgId = some v1) (htime : req.msgTime = some v2)
    (hsig : req.msgSig = some ("sha256=".toList ++
      hexEncode (hmacSha256 (strBytes e.secret) (strBytes v1 ++ strBytes v2 ++ req.body)))) :
    callback P st req = .ok ⟨stateSet st idStr { e with status := SubStatus.Enabled },
      ⟨200, ch⟩, none⟩ := by
  have hv := verify_msg_of_correct_sig e.secret req v1 v2 hid htime hsig
  unfold callback
  rw [htype]
  simp only [if_neg (by decide : ¬ ("webhook_callback_verification".toList : Str) =
      "notification".toList), if_pos rfl, hparse, hget, hv, hstatus]
  simp

def wSecret : Str := "0123456789".toList
def wId : Str := "sub1".toList
def wV1 : Str := "e76c6bd4-55c9-4987-8304-da1588d8988b".toList
def wV2 : Str := "2023-07-05T17:43:06Z".toList
def wBody : Bytes := strBytes "{}".toList
def wEntry : Entry := ⟨SubStatus.VerificationPending, wSecret, true, []⟩
def wState : SubState := [(wId, wEntry)]
def wParsers : Parsers :=
  ⟨fun _ => none, fun _ => some ⟨wId, "abc".toList⟩, fun _ => none⟩
def wReq : Req :=
  { msgId := some wV1, msgTime := some wV2,
    msgSig := some ("sha256=".toList ++
      hexEncode (hmacSha256 (strBytes wSecret) (strBytes wV1 ++ strBytes wV2 ++ wBody))),
    msgType := some "webhook_callback_verification".toList, body := wBody }

/-- Witness for C1 at a concrete subscription, secret and request. -/
theorem c1_witness :
    callback wParsers wState wReq =
      .ok ⟨stateSet wState wId { wEntry with status := SubStatus.Enabled },
        ⟨200, "abc".toList⟩, none⟩ :=
  c1_verification_happy_path wParsers wState wReq wId "abc".toList wV1 wV2 wEntry
    rfl rfl rfl rfl rfl rfl rfl

/-! ## C2 -/

def c2Parsers : Parsers :=
  ⟨fun _ => none, fun _ => none, fun _ => some ⟨wId, SubStatus.AuthorizationRevoked⟩⟩

def c2Req : Req :=
  { msgId := some wV1, msgTime := some wV2, msgSig := some "bad".toList,
    msgType := some "revocation".toList, body := wBody }

/-- C2 counterexample: a `revocation` callback whose signature does not verify
is answered 401, yet the indexed subscription does **not** stay in the index —
the handler removes the entry before verifying the HMAC. -/
theorem c2_counterexample :
    stateGet wState wId = some wEntry ∧
    verify_msg wEntry.secret c2Req c2Req.body = false ∧
    callback c2Parsers wState c2Req = .ok ⟨[], ⟨401, []⟩, none⟩ ∧
    stateGet ([] : SubState) wId = none := by
  exact ⟨rfl, by decide, rfl, rfl⟩

/-- C2 (amended): a callback whose HMAC does not verify is answered 401 for
every message type, with no state change for `notification` and
`webhook_callback_verification`; for `revocation` the entry has already been
removed from the index when the 401 is produced (its status cell is left
unmodified). -/
theorem c2_bad_hmac_behavior (P : Parsers) (st : SubState) (req : Req)
    (idStr : Str) (e : Entry)
    (hget : stateGet st idStr = some e)
    (hv : verify_msg e.secret req req.body = false) :
    ((req.msgType = some "notification".toList) →
      ∀ ev, P.notif req.body = some ⟨idStr, ev⟩ →
      callback P st req = .ok ⟨st, ⟨401, []⟩, none⟩) ∧
    ((req.msgType = some "webhook_callback_verification".toList) →
      ∀ ch, P.verif req.body = some ⟨idStr, ch⟩ →
      callback P st req = .ok ⟨st, ⟨401, []⟩, none⟩) ∧
    ((req.msgType = some "revocation".toList) →
      ∀ s, P.revoke req.body = some ⟨idStr, s⟩ →
      callback P st req = .ok ⟨stateRemove st idStr, ⟨401, []⟩, none⟩) := by
  refine ⟨?_, ?_, ?_⟩
  · intro htype ev hparse
    unfold callback
    rw [htype]
    simp only [if_pos rfl, hparse, hget, hv]
    simp
  · intro htype ch hparse
    unfold callback
    rw [htype]
    simp only [if_neg (by decide : ¬ ("webhook_callback_verification".toList : Str) =
        "notification".toList), if_pos rfl, hparse, hget, hv]
    simp
  · intro htype s hparse
    unfold callback
    rw [htype]
    simp only [if_neg (by decide : ¬ ("revocation".toList : Str) =
        "notification".toList),
      if_neg (by decide : ¬ ("revocation".toList : Str) =
        "webhook_callback_verification".toList), if_pos rfl, hparse, hget, hv]
    simp

/-- Witness for the amended C2 at a concrete revocation request. -/
theorem c2_witness :
    callback c2Parsers wState c2Req = .ok ⟨stateRemove wState wId, ⟨401, []⟩, none⟩ :=
  (c2_bad_hmac_behavior c2Parsers wState c2Req wId wEntry rfl (by decide)).2.2
    rfl SubStatus.AuthorizationRevoked rfl

/-! ## C3 -/

/-- The media playlist of the ad-filter scenario: two segments titled
`Amazon-1`, `Amazon-2`, then `live-3`, `live-4`. -/
def adSegs : List MediaSegment :=
  [⟨"a.ts".toList, some "Amazon-1".toList⟩, ⟨"b.ts".toList, some "Amazon-2".toList⟩,
   ⟨"c.ts".toList, some "live-3".toList⟩, ⟨"d.ts".toList, some "live-4".toList⟩]

/-- C3 counterexample: in the ad-filter scenario the surviving segments are
renamed `chunked/00000.ts`, `chunked/00001.ts` — the enumeration restarts at
zero after the dropped ad segments and is 5 digits wide, not the claimed
`chunked/0002.ts`, `chunked/0003.ts`. -/
theorem c3_counterexample :
    (download_media_rewrite "chunked".toList adSegs).map MediaSegment.uri ≠
      ["chunked/0002.ts".toList, "chunked/0003.ts".toList] ∧
    (download_media_rewrite "chunked".toList adSegs).map MediaSegment.uri =
      ["chunked/00000.ts".toList, "chunked/00001.ts".toList] := by
  constructor
  · decide
  · decide

/-- C3 (amended): with formats `["best"]` the first alternative (`chunked`) is
selected; the media playlist `Amazon-1, Amazon-2, live-3, live-4` is rewritten
to exactly the segments `live-3, live-4` renamed `chunked/00000.ts`,
`chunked/00001.ts` — the position counter restarts at zero after the dropped
ad prefix and indices are rendered 5 digits wide.  In general the rewrite
keeps exactly the post-ad-prefix segments in order and names them
`<alt>/<i:05>.ts` from `i = 0`. -/
theorem c3_ad_filter_rewrite :
    (selectAlt ["best".toList] [⟨"chunked".toList⟩, ⟨"audio_only".toList⟩] =
      some ("best".toList, ⟨"chunked".toList⟩)) ∧
    (download_media_rewrite "chunked".toList adSegs =
      [⟨"chunked/00000.ts".toList, some "live-3".toList⟩,
       ⟨"chunked/00001.ts".toList, some "live-4".toList⟩]) ∧
    (∀ (streamName : Str) (segs : List MediaSegment),
      (download_media_rewrite streamName segs).map MediaSegment.title =
        (segs.dropWhile isAdSegment).map MediaSegment.title ∧
      (download_media_rewrite streamName segs).map MediaSegment.uri =
        (List.range (segs.dropWhile isAdSegment).length).map (segName streamName)) := by
  refine ⟨by decide, by decide, ?_⟩
  intro streamName segs
  constructor
  · have h : MediaSegment.title ∘
        (fun p : Nat × MediaSegment => { p.2 with uri := segName streamName p.1 }) =
        MediaSegment.title ∘ Prod.snd := rfl
    rw [download_media_rewrite, List.map_map, h, ← List.map_map, List.enum_map_snd]
  · have h : MediaSegment.uri ∘
        (fun p : Nat × MediaSegment => { p.2 with uri := segName streamName p.1 }) =
        segName streamName ∘ Prod.fst := rfl
    rw [download_media_rewrite, List.map_map, h, ← List.map_map, List.enum_map_fst]

/-! ## C4 -/

/-- C4 counterexample: a first response of 401 followed by a retried response
of 404 makes `send_req` return `Ok` with the 404 response — the status of the
response received after the refresh-and-retry is never checked, so no error
carrying the status is returned. -/
theorem c4_counterexample :
    send_req 401 404 (some "tok2".toList) "tok1".toList =
      ⟨SendOutcome.okResponse 404, 2, 1, "tok2".toList⟩ ∧
    isSuccess 404 = false := by
  decide

/-- C4 (amended): a 401 first response triggers exactly one token
reacquisition and exactly one retry, whose response is returned as-is
regardless of its status; a token-endpoint failure propagates; a non-2xx,
non-401 first response yields an error carrying the status, and a 2xx first
response is returned with no refresh. -/
theorem c4_send_req_behavior (first second : Nat) (refresh : Option Str) (auth0 : Str) :
    (first = 401 → ∀ tok, refresh = some tok →
      send_req first second refresh auth0 =
        ⟨SendOutcome.okResponse second, 2, 1, tok⟩) ∧
    (first = 401 → refresh = none →
      send_req first second refresh auth0 = ⟨SendOutcome.errRefresh, 1, 1, auth0⟩) ∧
    (¬ first = 401 → isSuccess first = true →
      send_req first second refresh auth0 =
        ⟨SendOutcome.okResponse first, 1, 0, auth0⟩) ∧
    (¬ first = 401 → isSuccess first = false →
      send_req first second refresh auth0 =
        ⟨SendOutcome.errStatus first, 1, 0, auth0⟩) := by
  refine ⟨?_, ?_, ?_, ?_⟩
  · intro h tok hr; simp [send_req, h, hr]
  · intro h hr; simp [send_req, h, hr]
  · intro h hs; simp [send_req, h, hs]
  · intro h hs; simp [send_req, h, hs]

/-- Witness for the amended C4: the 401-refresh-retry path at concrete
statuses, plus the plain error path at a 503. -/
theorem c4_witness :
    send_req 401 404 (some "tok2".toList) "tok1".toList =
      ⟨SendOutcome.okResponse 404, 2, 1, "tok2".toList⟩ ∧
    send_req 503 200 none "tok1".toList =
      ⟨SendOutcome.errStatus 503, 1, 0, "tok1".toList⟩ :=
  ⟨(c4_send_req_behavior 401 404 (some "tok2".toList) "tok1".toList).1 rfl
      "tok2".toList rfl,
   (c4_send_req_behavior 503 200 none "tok1".toList).2.2.2 (by decide) (by decide)⟩

/-! ## C5 -/

/-- C5: token refresh is triggered exclusively by a 401 response — over any
sequence of `send_req` calls whose received responses are all 2xx, no token
endpoint request is issued and the stored bearer token is never replaced. -/
theorem c5_no_refresh_under_success (auth0 : Str)
    (calls : List (Nat × Nat × Option Str))
    (h : ∀ c ∈ calls, isSuccess c.1 = true) :
    sendSeq auth0 calls = (0, auth0) := by
  induction calls with
  | nil => rfl
  | cons c rest ih =>
    have hc : isSuccess c.1 = true := h c (List.mem_cons_self _ _)
    have h401 : ¬ c.1 = 401 := by
      intro e; rw [e] at hc; exact absurd hc (by decide)
    have hrest := ih (fun x hx => h x (List.mem_cons_of_mem _ hx))
    simp [sendSeq, send_req, h401, hc, hrest]

/-- Witness for C5 on a two-call all-2xx sequence. -/
theorem c5_witness :
    sendSeq "tok1".toList [(200, 0, none), (204, 0, none)] = (0, "tok1".toList) :=
  c5_no_refresh_under_success "tok1".toList [(200, 0, none), (204, 0, none)]
    (by decide)

/-! ## C6 -/

/-- C6: a notification for an indexed, enabled subscription whose consumer has
been dropped is answered 410 and the entry is removed; every subsequent
notification callback for the same subscription id is answered 404. -/
theorem c6_dropped_consumer (P : Parsers) (st : SubState) (req : Req)
    (idStr : Str) (ev : Bytes) (e : Entry)
    (htype : req.msgType = some "notification".toList)
    (hparse : P.notif req.body = some ⟨idStr, ev⟩)
    (hget : stateGet st idStr = some e)
    (hv : verify_msg e.secret req req.body = true)
    (hstatus : e.status = SubStatus.Enabled)
    (hdrop : e.consumerAlive = false) :
    callback P st req = .ok ⟨stateRemove st idStr, ⟨410, []⟩, none⟩ ∧
    ∀ (P' : Parsers) (req' : Req) (ev' : Bytes),
      req'.msgType = some "notification".toList →
      P'.notif req'.body = some ⟨idStr, ev'⟩ →
      callback P' (stateRemove st idStr) req' =
        .ok ⟨stateRemove st idStr, ⟨404, []⟩, none⟩ := by
  constructor
  · unfold callback
    rw [htype]
    simp only [if_pos rfl, hparse, hget, hv, hstatus, hdrop]
    simp
  · intro P' req' ev' htype' hparse'
    unfold callback
    rw [htype']
    simp only [if_pos rfl, hparse', stateGet_stateRemove_self]
    simp

def c6Entry : Entry := ⟨SubStatus.Enabled, wSecret, false, []⟩
def c6State : SubState := [(wId, c6Entry)]
def c6Parsers : Parsers :=
  ⟨fun _ => some ⟨wId, wBody⟩, fun _ => none, fun _ => none⟩
def c6Req : Req :=
  { msgId := some wV1, msgTime := some wV2,
    msgSig := some ("sha256=".toList ++
      hexEncode (hmacSha256 (strBytes wSecret) (strBytes wV1 ++ strBytes wV2 ++ wBody))),
    msgType := some "notification".toList, body := wBody }

/-- Witness for C6: a concrete enabled subscription with dropped consumer. -/
theorem c6_witness :
    callback c6Parsers c6State c6Req = .ok ⟨[], ⟨410, []⟩, none⟩ ∧
    callback c6Parsers ([] : SubState) c6Req = .ok ⟨[], ⟨404, []⟩, none⟩ := by
  have h := c6_dropped_consumer c6Parsers c6State c6Req wId wBody c6Entry
    rfl rfl rfl
    (verify_msg_of_correct_sig c6Entry.secret c6Req wV1 wV2 rfl rfl rfl)
    rfl rfl
  exact ⟨h.1, h.2 c6Parsers c6Req wBody rfl rfl⟩

/-! ## C7 -/

/-- C7 counterexample: a `recv()` that was already awaiting the queue when the
revocation arrived resolves to `Err(RecvError::ChannelClosed)` — not to the
claimed `Ok(None)` — because the status check at the top of `recv` has already
passed and the removal of the index entry drops the channel's sender. -/
theorem c7_counterexample :
    Subscription.recvResume (fun _ => true)
      (afterRevocation ⟨SubStatus.Enabled, [], true⟩ SubStatus.AuthorizationRevoked) =
      RecvOut.channelClosed ∧
    RecvOut.channelClosed ≠ RecvOut.okNone := by
  decide

/-- C7 (amended): after a revocation delivering a non-ok status is processed
through the callback endpoint, every *subsequently started* `recv()` on the
subscription handle surfaces `Ok(None)`; a `recv()` that was already awaiting
the (empty) queue instead resolves to `Err(RecvError::ChannelClosed)`. -/
theorem c7_recv_after_revocation (parse : Bytes → Bool) (h : HandleState)
    (r : SubStatus) (hr : r.isOkStatus = false) :
    Subscription.recv parse (afterRevocation h r) = RecvOut.okNone ∧
    (h.pending = [] →
      Subscription.recvResume parse (afterRevocation h r) = RecvOut.channelClosed) := by
  constructor
  · simp [Subscription.recv, afterRevocation, hr]
  · intro hp
    simp [Subscription.recvResume, afterRevocation, hp]

/-- Witness for the amended C7 at a concrete revoked handle. -/
theorem c7_witness :
    Subscription.recv (fun _ => true)
      (afterRevocation ⟨SubStatus.Enabled, [], true⟩ SubStatus.AuthorizationRevoked) =
      RecvOut.okNone ∧
    Subscription.recvResume (fun _ => true)
      (afterRevocation ⟨SubStatus.Enabled, [], true⟩ SubStatus.AuthorizationRevoked) =
      RecvOut.channelClosed := by
  have h := c7_recv_after_revocation (fun _ => true)
    ⟨SubStatus.Enabled, [], true⟩ SubStatus.AuthorizationRevoked (by decide)
  exact ⟨h.1, h.2 rfl⟩

/-! ## C8 -/

/-- C8 counterexample: with every connection attempt failing, the IRC task
sleeps 60 seconds (not 10) between attempts, makes 11 consecutive failing
attempts (not at most 10), and then the background task merely returns — the
source contains no process abort. -/
theorem c8_counterexample :
    ircLoop 0 (List.replicate 11 IrcStep.connFail) =
      ⟨List.replicate 11 60, 11, IrcEnd.gaveUp⟩ ∧
    (60 : Nat) ≠ 10 ∧ ¬ (11 ≤ 10) := by
  decide

/-- C8 (amended): every connection-phase or handle-phase error sleeps 60
seconds and reconnects; up to 11 consecutive failures are tolerated (the loop
guard is `try_count <= 10` starting from 0), after which the background IRC
task returns without aborting the process; a successful connection resets the
consecutive-failure count to zero (so a handle-phase error after it resumes
counting from 1). -/
theorem c8_irc_retry_behavior :
    (∀ rest, ircLoop 0 (List.replicate 11 IrcStep.connFail ++ rest) =
      ⟨List.replicate 11 60, 11, IrcEnd.gaveUp⟩) ∧
    (∀ t rest, t ≤ 10 → ircLoop t (IrcStep.connFail :: rest) =
      ⟨60 :: (ircLoop (t + 1) rest).sleeps, (ircLoop (t + 1) rest).attempts + 1,
        (ircLoop (t + 1) rest).ended⟩) ∧
    (∀ t rest, t ≤ 10 → ircLoop t (IrcStep.handleErr :: rest) =
      ⟨60 :: (ircLoop 1 rest).sleeps, (ircLoop 1 rest).attempts + 1,
        (ircLoop 1 rest).ended⟩) ∧
    (∀ t rest, t ≤ 10 → ircLoop t (IrcStep.handleDone :: rest) =
      ⟨[], 1, IrcEnd.handlerDone⟩) := by
  refine ⟨?_, ?_, ?_, ?_⟩
  · intro rest
    simp only [List.replicate_succ, List.cons_append, List.nil_append]
    simp [ircLoop]
    cases rest <;> simp [ircLoop]
  · intro t rest ht
    simp [ircLoop, ht]
  · intro t rest ht
    simp [ircLoop, ht]
  · intro t rest ht
    simp [ircLoop, ht]

/-- Witness for the amended C8 at concrete traces. -/
theorem c8_witness :
    ircLoop 0 (List.replicate 11 IrcStep.connFail ++ []) =
      ⟨List.replicate 11 60, 11, IrcEnd.gaveUp⟩ ∧
    ircLoop 0 [IrcStep.handleErr] =
      ⟨60 :: (ircLoop 1 []).sleeps, (ircLoop 1 []).attempts + 1,
        (ircLoop 1 []).ended⟩ ∧
    ircLoop 0 [IrcStep.handleDone] = ⟨[], 1, IrcEnd.handlerDone⟩ :=
  ⟨c8_irc_retry_behavior.1 [],
   c8_irc_retry_behavior.2.2.1 0 [] (by decide),
   c8_irc_retry_behavior.2.2.2 0 [] (by decide)⟩

/-! ## C9 -/

theorem create_new_dir_dup (fs : Fs) (p : DirPath)
    (hp : fs.contains p.parent = true) (hr : fs.contains p.render = true) :
    create_new_dir fs p = (fs, false) := by
  have hp' : p.parent ∈ fs := by simpa using hp
  have hr' : p.render ∈ fs := by simpa using hr
  simp [create_new_dir, hp', hr']

theorem create_new_dir_fresh (fs : Fs) (p : DirPath)
    (hp : fs.contains p.parent = true) (hr : fs.contains p.render = false) :
    create_new_dir fs p = (p.render :: fs, true) := by
  have hp' : p.parent ∈ fs := by simpa using hp
  have hr' : ¬ p.render ∈ fs := by simpa using hr
  simp [create_new_dir, hp', hr']

theorem create_new_file_dup (fs : Fs) (p : FilePath)
    (hr : fs.contains p.render = true) :
    create_new_file fs p = (fs, false) := by
  have hr' : p.render ∈ fs := by simpa using hr
  simp [create_new_file, hr']

theorem create_new_file_fresh (fs : Fs) (p : FilePath)
    (hr : fs.contains p.render = false) :
    create_new_file fs p = (p.render :: fs, true) := by
  have hr' : ¬ p.render ∈ fs := by simpa using hr
  simp [create_new_file, hr']

theorem create_dedup_dir_loop_spec (p : DirPath) :
    ∀ (l : List Nat) (fs fs' : Fs) (q : DirPath),
      fs.contains p.parent = true →
      create_dedup_dir_loop p fs l = some (fs', q) →
      fs.contains q.render = false ∧ fs' = q.render :: fs ∧ q.parent = p.parent := by
  intro l
  induction l with
  | nil =>
    intro fs fs' q hp h
    exact absurd h (by simp [create_dedup_dir_loop])
  | cons i rest ih =>
    intro fs fs' q hp h
    by_cases hc : fs.contains (DirPath.render { p with name := p.name ++ dashNum i }) = true
    · have hcn := create_new_dir_dup fs { p with name := p.name ++ dashNum i } hp hc
      rw [create_dedup_dir_loop, hcn] at h
      exact ih fs fs' q hp h
    · rw [Bool.not_eq_true] at hc
      have hcn := create_new_dir_fresh fs { p with name := p.name ++ dashNum i } hp hc
      rw [create_dedup_dir_loop, hcn] at h
      cases h
      exact ⟨hc, rfl, rfl⟩

theorem create_dedup_file_loop_spec (p : FilePath) :
    ∀ (l : List Nat) (fs fs' : Fs) (q : FilePath),
      create_dedup_file_loop p fs l = some (fs', q) →
      fs.contains q.render = false ∧ fs' = q.render :: fs ∧
        q.parent = p.parent ∧ q.ext = p.ext := by
  intro l
  induction l with
  | nil =>
    intro fs fs' q h
    exact absurd h (by simp [create_dedup_file_loop])
  | cons i rest ih =>
    intro fs fs' q h
    by_cases hc : fs.contains (FilePath.render { p with stem := p.stem ++ dashNum i }) = true
    · have hcn := create_new_file_dup fs { p with stem := p.stem ++ dashNum i } hc
      rw [create_dedup_file_loop, hcn] at h
      exact ih fs fs' q h
    · rw [Bool.not_eq_true] at hc
      have hcn := create_new_file_fresh fs { p with stem := p.stem ++ dashNum i } hc
      rw [create_dedup_file_loop, hcn] at h
      cases h
      exact ⟨hc, rfl, rfl, rfl⟩

def tmpFs : Fs := ["/tmp".toList, "/tmp/out".toList]
def outP : DirPath := ⟨"/tmp".toList, "out".toList⟩
def outN (i : Nat) : DirPath := ⟨"/tmp".toList, "out".toList ++ dashNum i⟩

theorem range_drop_cons (n k : Nat) (h : k < n) :
    (List.range n).drop k = k :: (List.range n).drop (k + 1) := by
  rw [List.drop_eq_getElem_cons (by simpa using h)]
  simp

theorem dedup_out_call1 :
    create_dedup_dir tmpFs outP = some ((outN 1).render :: tmpFs, outN 1) := by
  rw [create_dedup_dir, create_new_dir_dup tmpFs outP (by decide) (by decide)]
  show create_dedup_dir_loop outP tmpFs ((List.range MAX_FILENAME_DUP).drop 1) = _
  rw [range_drop_cons MAX_FILENAME_DUP 1 (by decide), create_dedup_dir_loop,
    create_new_dir_fresh tmpFs _ (by decide) (by decide)]
  rfl

theorem dedup_out_call2 :
    create_dedup_dir ((outN 1).render :: tmpFs) outP =
      some ((outN 2).render :: (outN 1).render :: tmpFs, outN 2) := by
  rw [create_dedup_dir, create_new_dir_dup _ outP (by decide) (by decide)]
  show create_dedup_dir_loop outP ((outN 1).render :: tmpFs)
    ((List.range MAX_FILENAME_DUP).drop 1) = _
  rw [range_drop_cons MAX_FILENAME_DUP 1 (by decide), create_dedup_dir_loop,
    create_new_dir_dup _ _ (by decide) (by decide)]
  show create_dedup_dir_loop outP ((outN 1).render :: tmpFs)
    ((List.range MAX_FILENAME_DUP).drop 2) = _
  rw [range_drop_cons MAX_FILENAME_DUP 2 (by decide), create_dedup_dir_loop,
    create_new_dir_fresh _ _ (by decide) (by decide)]
  rfl

theorem dedup_out_call3 :
    create_dedup_dir ((outN 2).render :: (outN 1).render :: tmpFs) outP =
      some ((outN 3).render :: (outN 2).render :: (outN 1).render :: tmpFs, outN 3) := by
  rw [create_dedup_dir, create_new_dir_dup _ outP (by decide) (by decide)]
  show create_dedup_dir_loop outP ((outN 2).render :: (outN 1).render :: tmpFs)
    ((List.range MAX_FILENAME_DUP).drop 1) = _
  rw [range_drop_cons MAX_FILENAME_DUP 1 (by decide), create_dedup_dir_loop,
    create_new_dir_dup _ _ (by decide) (by decide)]
  show create_dedup_dir_loop outP ((outN 2).render :: (outN 1).render :: tmpFs)
    ((List.range MAX_FILENAME_DUP).drop 2) = _
  rw [range_drop_cons MAX_FILENAME_DUP 2 (by decide), create_dedup_dir_loop,
    create_new_dir_dup _ _ (by decide) (by decide)]
  show create_dedup_dir_loop outP ((outN 2).render :: (outN 1).render :: tmpFs)
    ((List.range MAX_FILENAME_DUP).drop 3) = _
  rw [range_drop_cons MAX_FILENAME_DUP 3 (by decide), create_dedup_dir_loop,
    create_new_dir_fresh _ _ (by decide) (by decide)]
  rfl

/-- C9: dedup creation never overwrites.  In general (given the target's
parent directory exists) a successful `create_dedup_dir` / `create_dedup_file`
returns a path that did not exist before, adds exactly that path, and only
ever varies the final name component (stem) while keeping parent (and
extension); and concretely, three dedup-dir requests for an existing
`/tmp/out` create and return `/tmp/out-1`, `/tmp/out-2`, `/tmp/out-3`. -/
theorem c9_dedup_never_overwrites :
    (∀ (fs fs' : Fs) (p q : DirPath), fs.contains p.parent = true →
      create_dedup_dir fs p = some (fs', q) →
      fs.contains q.render = false ∧ fs' = q.render :: fs ∧ q.parent = p.parent) ∧
    (∀ (fs fs' : Fs) (p q : FilePath), fs.contains p.parent = true →
      create_dedup_file fs p = some (fs', q) →
      fs.contains q.render = false ∧ fs' = q.render :: fs ∧
        q.parent = p.parent ∧ q.ext = p.ext) ∧
    (create_dedup_dir tmpFs outP = some ((outN 1).render :: tmpFs, outN 1) ∧
     create_dedup_dir ((outN 1).render :: tmpFs) outP =
       some ((outN 2).render :: (outN 1).render :: tmpFs, outN 2) ∧
     create_dedup_dir ((outN 2).render :: (outN 1).render :: tmpFs) outP =
       some ((outN 3).render :: (outN 2).render :: (outN 1).render :: tmpFs, outN 3)) := by
  refine ⟨?_, ?_, ?_, ?_, ?_⟩
  · intro fs fs' p q hp h
    by_cases hc : fs.contains p.render = true
    · have hcn := create_new_dir_dup fs p hp hc
      rw [create_dedup_dir, hcn] at h
      exact create_dedup_dir_loop_spec p _ fs fs' q hp h
    · rw [Bool.not_eq_true] at hc
      have hcn := create_new_dir_fresh fs p hp hc
      rw [create_dedup_dir, hcn] at h
      cases h
      exact ⟨hc, rfl, rfl⟩
  · intro fs fs' p q hp h
    rw [create_dedup_file, if_pos hp] at h
    by_cases hc : fs.contains p.render = true
    · have hcn := create_new_file_dup fs p hc
      rw [hcn] at h
      exact create_dedup_file_loop_spec p _ fs fs' q h
    · rw [Bool.not_eq_true] at hc
      have hcn := create_new_file_fresh fs p hc
      rw [hcn] at h
      cases h
      exact ⟨hc, rfl, rfl, rfl⟩
  · exact dedup_out_call1
  · exact dedup_out_call2
  · exact dedup_out_call3

/-- Witness for C9: the general statement applied to the concrete first
`/tmp/out` request. -/
theorem c9_witness :
    tmpFs.contains (outN 1).render = false ∧
    (outN 1).render :: tmpFs = (outN 1).render :: tmpFs ∧
    (outN 1).parent = outP.parent :=
  c9_dedup_never_overwrites.1 tmpFs ((outN 1).render :: tmpFs) outP (outN 1)
    (by decide) dedup_out_call1

/-! ## C10 -/

theorem retryAux_calls_bound (res : Nat → Except Str Nat) :
    ∀ (k i : Nat), i + 1 ≤ (retryAux res i k).2 ∧ (retryAux res i k).2 ≤ i + k + 1 := by
  intro k
  induction k with
  | zero => intro i; simp [retryAux]
  | succ k ih =>
    intro i
    rw [retryAux]
    cases hres : res i with
    | ok x => simp
    | error e =>
      simp only
      have := ih (i + 1)
      omega

theorem retryAux_all_fail (res : Nat → Except Str Nat) :
    ∀ (k i : Nat), (∀ j, i ≤ j → j < i + k → (res j).isOk = false) →
      retryAux res i k = (res (i + k), i + k + 1) := by
  intro k
  induction k with
  | zero => intro i _; simp [retryAux]
  | succ k ih =>
    intro i hfail
    rw [retryAux]
    cases hres : res i with
    | ok x =>
      have hko := hfail i (le_refl i) (by omega)
      rw [hres] at hko
      simp [Except.isOk, Except.toBool] at hko
    | error e =>
      simp only
      rw [ih (i + 1) (fun j h1 h2 => hfail j (by omega) (by omega))]
      have harith : i + 1 + k = i + (k + 1) := by omega
      rw [harith]

theorem retryAux_first_ok (res : Nat → Except Str Nat) :
    ∀ (k i j : Nat), i ≤ j → j ≤ i + k → (res j).isOk = true →
      (∀ m, i ≤ m → m < j → (res m).isOk = false) →
      retryAux res i k = (res j, j + 1) := by
  intro k
  induction k with
  | zero =>
    intro i j h1 h2 _ _
    have : j = i := by omega
    subst this
    simp [retryAux]
  | succ k ih =>
    intro i j h1 h2 hok hfail
    rw [retryAux]
    by_cases hij : j = i
    · subst hij
      cases hres : res j with
      | ok x => simp [hres.symm]
      | error e => rw [hres] at hok; simp [Except.isOk, Except.toBool] at hok
    · have hfi := hfail i (le_refl i) (by omega)
      cases hres : res i with
      | ok x => rw [hres] at hfi; simp [Except.isOk, Except.toBool] at hfi
      | error e =>
        simp only
        exact ih (i + 1) j (by omega) (by omega) hok
          (fun m hm1 hm2 => hfail m (by omega) hm2)

/-- C10: `retry` with `count = 0` hits the `assert!(count > 0)` (modelled as
`none`); with `count ≥ 1` it runs the wrapped operation between 1 and `count`
times, returns the first `Ok` result (having made exactly that many
attempts), and after `count` failed attempts returns the final attempt's
error. -/
theorem c10_retry_contract (res : Nat → Except Str Nat) (count : Nat) :
    (retry res 0 = none) ∧
    (1 ≤ count → ∃ r n, retry res count = some (r, n) ∧ 1 ≤ n ∧ n ≤ count) ∧
    (1 ≤ count → (∀ i, i < count → (res i).isOk = false) →
      retry res count = some (res (count - 1), count)) ∧
    (∀ j, j < count → (res j).isOk = true →
      (∀ i, i < j → (res i).isOk = false) →
      retry res count = some (res j, j + 1)) := by
  refine ⟨rfl, ?_, ?_, ?_⟩
  · intro hc
    refine ⟨(retryAux res 0 (count - 1)).1, (retryAux res 0 (count - 1)).2, ?_, ?_, ?_⟩
    · rw [retry, if_neg (by omega)]
    · have := retryAux_calls_bound res (count - 1) 0
      omega
    · have := retryAux_calls_bound res (count - 1) 0
      omega
  · intro hc hfail
    have h0 : 0 + (count - 1) = count - 1 := by omega
    have h1 : count - 1 + 1 = count := by omega
    rw [retry, if_neg (by omega),
      retryAux_all_fail res (count - 1) 0 (fun j hj1 hj2 => hfail j (by omega)), h0, h1]
  · intro j hj hok hfail
    rw [retry, if_neg (by omega),
      retryAux_first_ok res (count - 1) 0 j (by omega) (by omega) hok
        (fun m hm1 hm2 => hfail m hm2)]

/-- Witness for C10: the zero-count assertion and a run that fails twice then
succeeds on the third of three allowed attempts. -/
theorem c10_witness :
    retry (fun _ => Except.ok 7) 0 = none ∧
    retry (fun i => if i < 2 then Except.error "e".toList else Except.ok 7) 3 =
      some (Except.ok 7, 3) := by
  refine ⟨(c10_retry_contract (fun _ => Except.ok 7) 0).1, ?_⟩
  have h := (c10_retry_contract
    (fun i => if i < 2 then Except.error "e".toList else Except.ok 7) 3).2.2.2
    2 (by decide) (by decide) (by decide)
  exact h

end TwitchArchive
